import Mathlib

set_option linter.unusedVariables false

/-!
Verification of the embedded-terminal subsystem of the sysengn repository.

The embedding below models, from the source:
  - `src/sysengn/core/shell.py` (class `ShellManager`): session state,
    `write`, `_read_loop`, `close`, `_start_process`;
  - `src/sysengn/ui/components/terminal.py` (class `TerminalComponent`):
    `_map_key`, `_render_line_data`, `_update_display`, `handle_resize`,
    `_map_color`.

Machine integers do not occur; Python strings are modelled as Lean
strings (with Python case functions modelled on the ASCII range, which
is all the theorems use them on), byte streams as lists of naturals.
-/

namespace SysEngn

/-! ## ShellManager session state (shell.py lines 17-33)

The mutable fields of a `ShellManager` instance that the operations read
or write: `running`, `master_fd` (an open OS descriptor or `None`),
whether `self.process` is set, and whether the underlying child process
is actually alive at OS level.  The output callback is modelled by
returning the list of strings passed to `on_output`.
-/

structure ShellState where
  running : Bool
  masterFd : Option Nat
  hasProcess : Bool
  childAlive : Bool
deriving DecidableEq, Repr

/-- Field state after `__init__` lines 28-31 (before `_start_process`). -/
def initShellState : ShellState :=
  { running := false, masterFd := none, hasProcess := false, childAlive := false }

/-- Record of what `close()` did to the child: `terminated` means
`process.terminate()` ran, `killed` means the grace-period wait timed out
and `process.kill()` ran (shell.py lines 114-120). -/
structure CloseLog where
  terminated : Bool
  killed : Bool
deriving DecidableEq, Repr

/-- Embedding of `ShellManager.close` (shell.py lines 110-131).
`graceful` tells whether the child exits within the 0.2s grace period of
`process.wait` (if not, `TimeoutExpired` is caught and `process.kill()`
runs); `osCloseFails` tells whether `os.close(master_fd)` raises
`OSError` - the source swallows that error with a bare `pass`, which is
why the result does not depend on it.  The final `join` of the reader
thread is covered by the `readLoopGo` lemmas: once `running` is false
the loop guard fails and the loop exits. -/
def closeShell (graceful osCloseFails : Bool) (s : ShellState) : ShellState × CloseLog :=
  let s1 := { s with running := false }
  let step2 : ShellState × CloseLog :=
    if s1.hasProcess then
      ({ s1 with hasProcess := false, childAlive := false }, ⟨true, !graceful⟩)
    else (s1, ⟨false, false⟩)
  let s3 := if step2.1.masterFd.isSome then { step2.1 with masterFd := none } else step2.1
  (s3, step2.2)

/-- Result channel of `ShellManager.write` (shell.py lines 63-77):
`noop` is the silent early return of lines 69-70, `wrote` a successful
`os.write`, `errorHandled` the `except OSError` branch of lines 74-77.
`raisedOSError` would be an `OSError` escaping to the caller; the
`except` clause makes this branch unreachable, and the theorems state
that `writeShell` never returns it. -/
inductive WriteResult
  | noop
  | wrote
  | errorHandled
  | raisedOSError
deriving DecidableEq, Repr

/-- Embedding of `ShellManager.write` (shell.py lines 63-77).  `osErr`
is the outcome the OS gives `os.write`: `none` for success, `some err`
for an `OSError` rendered as the text `err` (the source interpolates the
exception into the diagnostic message).  Returns the new state, the list
of strings passed to `on_output`, and the result channel. -/
def writeShell (graceful osCloseFails : Bool) (osErr : Option String)
    (s : ShellState) (command : String) : ShellState × List String × WriteResult :=
  if s.running = false ∨ s.masterFd = none then (s, [], .noop)
  else
    match osErr with
    | none => (s, [], .wrote)
    | some err =>
      ((closeShell graceful osCloseFails s).1,
       ["\nError writing to shell: " ++ err ++ "\n"], .errorHandled)

/-! ## The reader loop (shell.py lines 79-108) -/

/-- One outcome of the `select`/`os.read` step inside `_read_loop`:
`read bytes` is `os.read` returning `bytes` (empty list = EOF, line 92),
`ioError` the `except OSError` branch (line 101), `otherError` the
generic `except Exception` branch (line 104). -/
inductive ReadEvent
  | read (bytes : List Nat)
  | ioError
  | otherError (msg : String)
deriving DecidableEq, Repr

/-- Decode one UTF-8 sequence starting at lead byte `b` with following
bytes `rest`.  Returns the code point (or U+FFFD for ill-formed input)
and the number of bytes consumed from `rest`.  Follows the semantics of
Python `bytes.decode("utf-8", errors="replace")`: each maximal subpart
of an ill-formed subsequence is replaced by a single U+FFFD, and a byte
that breaks a sequence is left for the next round. -/
def utf8DecodeOne (b : Nat) (rest : List Nat) : Nat × Nat :=
  if b < 0x80 then (b, 0)
  else if b < 0xC2 then (0xFFFD, 0)
  else if b ≤ 0xDF then
    match rest with
    | [] => (0xFFFD, 0)
    | c :: _ =>
      if 0x80 ≤ c ∧ c ≤ 0xBF then ((b - 0xC0) * 0x40 + (c - 0x80), 1)
      else (0xFFFD, 0)
  else if b ≤ 0xEF then
    let lo := if b = 0xE0 then 0xA0 else 0x80
    let hi := if b = 0xED then 0x9F else 0xBF
    match rest with
    | [] => (0xFFFD, 0)
    | c :: rest2 =>
      if lo ≤ c ∧ c ≤ hi then
        match rest2 with
        | [] => (0xFFFD, 1)
        | d :: _ =>
          if 0x80 ≤ d ∧ d ≤ 0xBF then
            ((b - 0xE0) * 0x1000 + (c - 0x80) * 0x40 + (d - 0x80), 2)
          else (0xFFFD, 1)
      else (0xFFFD, 0)
  else if b ≤ 0xF4 then
    let lo := if b = 0xF0 then 0x90 else 0x80
    let hi := if b = 0xF4 then 0x8F else 0xBF
    match rest with
    | [] => (0xFFFD, 0)
    | c :: rest2 =>
      if lo ≤ c ∧ c ≤ hi then
        match rest2 with
        | [] => (0xFFFD, 1)
        | d :: rest3 =>
          if 0x80 ≤ d ∧ d ≤ 0xBF then
            match rest3 with
            | [] => (0xFFFD, 2)
            | e2 :: _ =>
              if 0x80 ≤ e2 ∧ e2 ≤ 0xBF then
                ((b - 0xF0) * 0x40000 + (c - 0x80) * 0x1000 + (d - 0x80) * 0x40 + (e2 - 0x80), 3)
              else (0xFFFD, 2)
          else (0xFFFD, 1)
      else (0xFFFD, 0)
  else (0xFFFD, 0)

/-- Fuel-driven decode loop; the fuel is only an induction handle, and
`decodeUtf8Replace` supplies enough of it that the zero-fuel branch is
never reached (each step consumes at least one byte). -/
def decodeUtf8Go : Nat → List Nat → List Nat
  | 0, _ => []
  | _ + 1, [] => []
  | fuel + 1, b :: rest =>
    let r := utf8DecodeOne b rest
    r.1 :: decodeUtf8Go fuel (rest.drop r.2)

/-- Model of Python `bytes.decode("utf-8", errors="replace")` applied to
`bytes` (shell.py line 98), producing the code points of the resulting
string. -/
def decodeUtf8Replace (bytes : List Nat) : List Nat :=
  decodeUtf8Go bytes.length bytes

/-- Code points rendered back as a Lean string (all code points produced
by `decodeUtf8Replace` are scalar values, so `Char.ofNat` is exact). -/
def cpsToStr (cps : List Nat) : String :=
  String.mk (cps.map Char.ofNat)

/-- Body of the `while` loop of `_read_loop` (shell.py lines 84-108) run
against a script of read outcomes.  The guard `self.running and
self.master_fd is not None` is re-checked before each event; an EOF read
or either `except` branch breaks out; after the loop exits the source
sets `running = False` (line 108).  Returns the final state, the list of
texts handed to `on_output`, and whether the loop has exited (when the
script runs out with the guard still true, the real loop is still
polling, so the flag is `false` and `running` has not been touched). -/
def readLoopGo : ShellState → List ReadEvent → ShellState × List String × Bool
  | s, [] =>
    if s.running && s.masterFd.isSome then (s, [], false)
    else ({ s with running := false }, [], true)
  | s, ev :: rest =>
    if s.running && s.masterFd.isSome then
      match ev with
      | .read [] => ({ s with running := false }, [], true)
      | .read bytes =>
        let r := readLoopGo s rest
        (r.1, cpsToStr (decodeUtf8Replace bytes) :: r.2.1, r.2.2)
      | .ioError => ({ s with running := false }, [], true)
      | .otherError msg =>
        ({ s with running := false }, ["\nShell read error: " ++ msg ++ "\n"], true)
    else ({ s with running := false }, [], true)

/-- Embedding of `ShellManager._read_loop` (shell.py lines 79-108),
including the early return of lines 81-82 when `master_fd` is `None`
(which leaves `running` untouched). -/
def readLoop (s : ShellState) (script : List ReadEvent) : ShellState × List String × Bool :=
  if s.masterFd.isNone then (s, [], true)
  else readLoopGo s script

/-- Embedding of `ShellManager._start_process` (shell.py lines 35-61).
`pty.openpty()` hands the parent a fresh primary descriptor `fdM` and a
secondary descriptor; `spawnOk` tells whether `subprocess.Popen`
succeeds.  The `finally` block closes the secondary descriptor on both
paths, which is what `slaveClosed` records; on failure the exception
propagates (`raised`), `running` has not been set, and the reader thread
was never started. -/
structure StartResult where
  state : ShellState
  slaveClosed : Bool
  raised : Bool
  threadStarted : Bool
deriving DecidableEq, Repr

def startProcess (spawnOk : Bool) (fdM : Nat) (s : ShellState) : StartResult :=
  let s1 := { s with masterFd := some fdM }
  if spawnOk then
    { state := { s1 with hasProcess := true, childAlive := true, running := true },
      slaveClosed := true, raised := false, threadStarted := true }
  else
    { state := s1, slaveClosed := true, raised := true, threadStarted := false }

/-! ## Helper lemmas on the session model -/

theorem shellState_set_running_false {s : ShellState} (h : s.running = false) :
    ({ s with running := false } : ShellState) = s := by
  cases s
  simp_all

theorem readLoopGo_not_running (s : ShellState) (h : s.running = false) :
    ∀ script, readLoopGo s script = (s, [], true) := by
  intro script
  cases script with
  | nil =>
    simp [readLoopGo, h, shellState_set_running_false h]
  | cons ev rest =>
    simp [readLoopGo, h, shellState_set_running_false h]

/-! ## Claim theorems on the session model -/

/-- C9.  Whenever the session is not running or the primary descriptor
is absent, `write()` is a silent no-op: it returns without writing,
without raising, and without invoking the output callback, leaving the
state unchanged (shell.py lines 69-70). -/
theorem write_not_running_noop (g oc : Bool) (osErr : Option String)
    (s : ShellState) (command : String)
    (h : s.running = false ∨ s.masterFd = none) :
    writeShell g oc osErr s command = (s, [], .noop) := by
  simp [writeShell, h]

/-- Witness for `write_not_running_noop` at the freshly-initialized
state, which has `running = false` and `masterFd = none`. -/
theorem write_not_running_noop_witness :
    writeShell true false (some "EIO") initShellState "ls\n" =
      (initShellState, [], .noop) :=
  write_not_running_noop true false (some "EIO") initShellState "ls\n" (Or.inl rfl)

/-- C5.  When the descriptor write raises an I/O error on a live
session, `write()` catches it, surfaces the diagnostic message through
the output callback, invokes `close()` as a side effect, and never lets
the exception escape to the caller (shell.py lines 72-77). -/
theorem write_oserror_reports_and_closes (g oc : Bool) (err : String)
    (s : ShellState) (command : String) (fd : Nat)
    (h1 : s.running = true) (h2 : s.masterFd = some fd) :
    writeShell g oc (some err) s command =
      ((closeShell g oc s).1,
       ["\nError writing to shell: " ++ err ++ "\n"], .errorHandled) ∧
    (writeShell g oc (some err) s command).2.2 ≠ .raisedOSError := by
  constructor
  · simp [writeShell, h1, h2]
  · simp [writeShell, h1, h2]

/-- Witness for `write_oserror_reports_and_closes` at a live session. -/
theorem write_oserror_reports_and_closes_witness :
    writeShell true false (some "Errno 5") ⟨true, some 3, true, true⟩ "ls\n" =
      ((closeShell true false ⟨true, some 3, true, true⟩).1,
       ["\nError writing to shell: " ++ "Errno 5" ++ "\n"], .errorHandled) ∧
    (writeShell true false (some "Errno 5") ⟨true, some 3, true, true⟩ "ls\n").2.2 ≠
      .raisedOSError :=
  write_oserror_reports_and_closes true false "Errno 5" ⟨true, some 3, true, true⟩
    "ls\n" 3 rfl rfl

/-- C6.  `close()` is idempotent and crash-free: it always leaves
`running = false`, the primary descriptor closed and the child process
dead (force-killing it when the grace-period wait times out), its result
does not depend on whether `os.close` raises (the source swallows that
error), a second `close()` reproduces the state of the first, and after
`close()` the reader loop guard fails so the reader thread exits at
once.  The hypothesis is the invariant, maintained by every operation of
the class, that a live child is only reachable through `self.process`. -/
theorem close_idempotent_safe (s : ShellState) (g1 g2 o1 o2 : Bool)
    (hinv : s.childAlive = true → s.hasProcess = true) :
    (closeShell g1 o1 s).1.running = false ∧
    (closeShell g1 o1 s).1.masterFd = none ∧
    (closeShell g1 o1 s).1.hasProcess = false ∧
    (closeShell g1 o1 s).1.childAlive = false ∧
    (closeShell g2 o2 (closeShell g1 o1 s).1).1 = (closeShell g1 o1 s).1 ∧
    closeShell g1 o1 s = closeShell g1 o2 s ∧
    (s.hasProcess = true →
      (closeShell false o1 s).2.killed = true ∧ (closeShell true o1 s).2.killed = false) ∧
    (∀ script, readLoopGo (closeShell g1 o1 s).1 script = ((closeShell g1 o1 s).1, [], true)) := by
  obtain ⟨r, fd, hp, ca⟩ := s
  refine ⟨?_, ?_, ?_, ?_, ?_, ?_, ?_, ?_⟩
  · cases hp <;> cases fd <;> simp [closeShell]
  · cases hp <;> cases fd <;> simp [closeShell]
  · cases hp <;> cases fd <;> simp [closeShell]
  · cases hp <;> cases fd <;> cases ca <;> simp_all [closeShell]
  · cases hp <;> cases fd <;> simp [closeShell]
  · cases hp <;> cases fd <;> simp [closeShell]
  · intro h
    cases fd <;> simp_all [closeShell]
  · intro script
    apply readLoopGo_not_running
    cases hp <;> cases fd <;> simp [closeShell]

/-- Witness for `close_idempotent_safe` at a live session: two selected
conjuncts, instantiated. -/
theorem close_idempotent_safe_witness :
    (closeShell true true ⟨true, some 3, true, true⟩).1.running = false ∧
    (closeShell false false (closeShell true true ⟨true, some 3, true, true⟩).1).1 =
      (closeShell true true ⟨true, some 3, true, true⟩).1 :=
  ⟨(close_idempotent_safe ⟨true, some 3, true, true⟩ true false true false (fun _ => rfl)).1,
   (close_idempotent_safe ⟨true, some 3, true, true⟩ true false true false
      (fun _ => rfl)).2.2.2.2.1⟩

/-- C4 counterexample.  After the reader loop observes a read of zero
bytes it does stop with `running = false`, but a subsequent `write()`
does NOT report an error to the caller or the output callback: it is the
silent no-op of shell.py lines 69-70 - the callback list is empty and
the result channel is `noop`. -/
theorem write_after_eof_reports_nothing :
    (readLoop ⟨true, some 3, true, true⟩ [ReadEvent.read []]).1.running = false ∧
    writeShell true false none (readLoop ⟨true, some 3, true, true⟩ [ReadEvent.read []]).1
        "echo hi\n" =
      ((readLoop ⟨true, some 3, true, true⟩ [ReadEvent.read []]).1, [], .noop) := by
  decide

/-- C4 as amended.  After a read of zero bytes is observed the reader
loop stops and the running flag becomes false, and every subsequent
`write()` call returns immediately - without blocking, without writing,
and without reporting anything - as a silent no-op. -/
theorem read_eof_stops_loop_write_silent (s : ShellState) (fd : Nat)
    (rest : List ReadEvent) (g oc : Bool) (osErr : Option String) (command : String)
    (h1 : s.running = true) (h2 : s.masterFd = some fd) :
    readLoop s (ReadEvent.read [] :: rest) = ({ s with running := false }, [], true) ∧
    writeShell g oc osErr { s with running := false } command =
      ({ s with running := false }, [], .noop) := by
  constructor
  · simp [readLoop, readLoopGo, h1, h2]
  · simp [writeShell]

/-- Witness for `read_eof_stops_loop_write_silent` at a live session. -/
theorem read_eof_stops_loop_write_silent_witness :
    readLoop ⟨true, some 3, true, true⟩ [ReadEvent.read []] =
      ({ running := false, masterFd := some 3, hasProcess := true, childAlive := true }, [], true) ∧
    writeShell true false none
        { running := false, masterFd := some 3, hasProcess := true, childAlive := true } "ls\n" =
      ({ running := false, masterFd := some 3, hasProcess := true, childAlive := true }, [], .noop) :=
  read_eof_stops_loop_write_silent ⟨true, some 3, true, true⟩ 3 [] true false none
    "ls\n" rfl rfl

/-- C10.  `_start_process` closes the secondary pty descriptor on every
path (the `finally` block of shell.py lines 59-61); when `Popen` raises,
the exception propagates to the caller with `running` still false and no
reader thread started. -/
theorem start_process_closes_slave (spawnOk : Bool) (fdM : Nat) (s : ShellState) :
    (startProcess spawnOk fdM s).slaveClosed = true ∧
    (spawnOk = false →
      (startProcess spawnOk fdM s).raised = true ∧
      (startProcess spawnOk fdM s).threadStarted = false ∧
      (s.running = false → (startProcess spawnOk fdM s).state.running = false)) := by
  constructor
  · cases spawnOk <;> simp [startProcess]
  · intro h
    subst h
    refine ⟨rfl, rfl, fun hr => ?_⟩
    simp [startProcess, hr]

/-- Witness for `start_process_closes_slave` at a failing spawn from the
freshly-initialized state. -/
theorem start_process_closes_slave_witness :
    (startProcess false 3 initShellState).slaveClosed = true ∧
    (startProcess false 3 initShellState).raised = true ∧
    (startProcess false 3 initShellState).threadStarted = false ∧
    (startProcess false 3 initShellState).state.running = false := by
  have h := start_process_closes_slave false 3 initShellState
  exact ⟨h.1, (h.2 rfl).1, (h.2 rfl).2.1, (h.2 rfl).2.2 rfl⟩

/-! ## Key event encoder (terminal.py lines 141-190)

Flet delivers a keyboard event with a key name string and modifier
flags; `_map_key` uses only `key`, `shift` and `ctrl`.  The Python
string methods `upper`, `lower` and `isalpha` are modelled exactly on
the ASCII range (which is all the claim theorems apply them to); outside
ASCII, Python applies full Unicode case folding, which the single-char
theorem therefore restricts away from.
-/

structure KeyEvent where
  key : String
  shift : Bool
  ctrl : Bool
deriving DecidableEq, Repr

def pyUpperChar (c : Char) : Char :=
  if 'a' ≤ c ∧ c ≤ 'z' then Char.ofNat (c.toNat - 32) else c

def pyLowerChar (c : Char) : Char :=
  if 'A' ≤ c ∧ c ≤ 'Z' then Char.ofNat (c.toNat + 32) else c

def pyIsAlphaChar (c : Char) : Bool :=
  ('a' ≤ c && c ≤ 'z') || ('A' ≤ c && c ≤ 'Z')

def pyUpper (s : String) : String := String.mk (s.data.map pyUpperChar)

def pyLower (s : String) : String := String.mk (s.data.map pyLowerChar)

def pyIsAlpha (s : String) : Bool := !s.data.isEmpty && s.data.all pyIsAlphaChar

/-- Embedding of `TerminalComponent._map_key` (terminal.py lines
141-190): the elif chain over named keys, then the Ctrl block, then the
single-character fallthrough, then the empty default. -/
def mapKey (e : KeyEvent) : String :=
  if e.key = "Enter" then "\r"
  else if e.key = "Backspace" then "\x7f"
  else if e.key = "Tab" then "\t"
  else if e.key = "Escape" then "\x1b"
  else if e.key = "Arrow Up" then "\x1b[A"
  else if e.key = "Arrow Down" then "\x1b[B"
  else if e.key = "Arrow Right" then "\x1b[C"
  else if e.key = "Arrow Left" then "\x1b[D"
  else if e.key = "Home" then "\x1b[H"
  else if e.key = "End" then "\x1b[F"
  else if e.key = "Page Up" then "\x1b[5~"
  else if e.key = "Page Down" then "\x1b[6~"
  else if e.key = "Space" ∨ e.key = " " then " "
  else if e.key = "Delete" then "\x1b[3~"
  else if e.ctrl = true then
    if pyUpper e.key = "C" then "\x03"
    else if pyUpper e.key = "D" then "\x04"
    else if pyUpper e.key = "Z" then "\x1a"
    else if pyUpper e.key = "L" then "\x0c"
    else ""
  else if e.key.length = 1 then
    if e.shift = false ∧ pyIsAlpha e.key = true then pyLower e.key else e.key
  else ""

/-- The key names the elif chain of `_map_key` recognizes. -/
def namedKeys : List String :=
  ["Enter", "Backspace", "Tab", "Escape", "Arrow Up", "Arrow Down", "Arrow Right",
   "Arrow Left", "Home", "End", "Page Up", "Page Down", "Space", " ", "Delete"]

theorem pyUpper_length (s : String) : (pyUpper s).length = s.length := by
  show (s.data.map pyUpperChar).length = s.length
  rw [List.length_map]
  rfl

/-- C3.  The key encoder is a pure total function: every named key maps
to its fixed sequence regardless of modifiers; Ctrl plus C/D/Z/L (either
case) maps to the control code; every other Ctrl-modified combination
maps to the empty string; every multi-character unrecognized key name
maps to the empty string; and a single character passes through
unchanged except for the shift-derived lowercasing of letters.  The
single-character clause is stated over one-character ASCII-convention
keys, where the modelled Python case functions are exact. -/
theorem map_key_spec :
    (∀ sh ct : Bool,
      mapKey ⟨"Enter", sh, ct⟩ = "\r" ∧
      mapKey ⟨"Backspace", sh, ct⟩ = "\x7f" ∧
      mapKey ⟨"Tab", sh, ct⟩ = "\t" ∧
      mapKey ⟨"Escape", sh, ct⟩ = "\x1b" ∧
      mapKey ⟨"Arrow Up", sh, ct⟩ = "\x1b[A" ∧
      mapKey ⟨"Arrow Down", sh, ct⟩ = "\x1b[B" ∧
      mapKey ⟨"Arrow Right", sh, ct⟩ = "\x1b[C" ∧
      mapKey ⟨"Arrow Left", sh, ct⟩ = "\x1b[D" ∧
      mapKey ⟨"Home", sh, ct⟩ = "\x1b[H" ∧
      mapKey ⟨"End", sh, ct⟩ = "\x1b[F" ∧
      mapKey ⟨"Page Up", sh, ct⟩ = "\x1b[5~" ∧
      mapKey ⟨"Page Down", sh, ct⟩ = "\x1b[6~" ∧
      mapKey ⟨"Delete", sh, ct⟩ = "\x1b[3~" ∧
      mapKey ⟨"Space", sh, ct⟩ = " " ∧
      mapKey ⟨" ", sh, ct⟩ = " ") ∧
    (∀ sh : Bool,
      mapKey ⟨"C", sh, true⟩ = "\x03" ∧ mapKey ⟨"c", sh, true⟩ = "\x03" ∧
      mapKey ⟨"D", sh, true⟩ = "\x04" ∧ mapKey ⟨"d", sh, true⟩ = "\x04" ∧
      mapKey ⟨"Z", sh, true⟩ = "\x1a" ∧ mapKey ⟨"z", sh, true⟩ = "\x1a" ∧
      mapKey ⟨"L", sh, true⟩ = "\x0c" ∧ mapKey ⟨"l", sh, true⟩ = "\x0c") ∧
    (∀ e : KeyEvent, e.ctrl = true → e.key ∉ namedKeys →
      pyUpper e.key ≠ "C" → pyUpper e.key ≠ "D" →
      pyUpper e.key ≠ "Z" → pyUpper e.key ≠ "L" →
      mapKey e = "") ∧
    (∀ e : KeyEvent, 2 ≤ e.key.length → e.key ∉ namedKeys → mapKey e = "") ∧
    (∀ (c : Char) (sh : Bool),
      mapKey ⟨String.mk [c], sh, false⟩ =
        if sh = false ∧ pyIsAlphaChar c = true then String.mk [pyLowerChar c]
        else String.mk [c]) := by
  refine ⟨?_, ?_, ?_, ?_, ?_⟩
  · intro sh ct
    exact ⟨rfl, rfl, rfl, rfl, rfl, rfl, rfl, rfl, rfl, rfl, rfl, rfl, rfl, rfl, rfl⟩
  · intro sh
    exact ⟨rfl, rfl, rfl, rfl, rfl, rfl, rfl, rfl⟩
  · intro e hc hn h1 h2 h3 h4
    have k1 : e.key ≠ "Enter" := fun h => hn (by rw [h]; decide)
    have k2 : e.key ≠ "Backspace" := fun h => hn (by rw [h]; decide)
    have k3 : e.key ≠ "Tab" := fun h => hn (by rw [h]; decide)
    have k4 : e.key ≠ "Escape" := fun h => hn (by rw [h]; decide)
    have k5 : e.key ≠ "Arrow Up" := fun h => hn (by rw [h]; decide)
    have k6 : e.key ≠ "Arrow Down" := fun h => hn (by rw [h]; decide)
    have k7 : e.key ≠ "Arrow Right" := fun h => hn (by rw [h]; decide)
    have k8 : e.key ≠ "Arrow Left" := fun h => hn (by rw [h]; decide)
    have k9 : e.key ≠ "Home" := fun h => hn (by rw [h]; decide)
    have k10 : e.key ≠ "End" := fun h => hn (by rw [h]; decide)
    have k11 : e.key ≠ "Page Up" := fun h => hn (by rw [h]; decide)
    have k12 : e.key ≠ "Page Down" := fun h => hn (by rw [h]; decide)
    have k13 : e.key ≠ "Space" := fun h => hn (by rw [h]; decide)
    have k14 : e.key ≠ " " := fun h => hn (by rw [h]; decide)
    have k15 : e.key ≠ "Delete" := fun h => hn (by rw [h]; decide)
    simp [mapKey, k1, k2, k3, k4, k5, k6, k7, k8, k9, k10, k11, k12, k13, k14, k15,
      hc, h1, h2, h3, h4]
  · intro e hlen hn
    have k1 : e.key ≠ "Enter" := fun h => hn (by rw [h]; decide)
    have k2 : e.key ≠ "Backspace" := fun h => hn (by rw [h]; decide)
    have k3 : e.key ≠ "Tab" := fun h => hn (by rw [h]; decide)
    have k4 : e.key ≠ "Escape" := fun h => hn (by rw [h]; decide)
    have k5 : e.key ≠ "Arrow Up" := fun h => hn (by rw [h]; decide)
    have k6 : e.key ≠ "Arrow Down" := fun h => hn (by rw [h]; decide)
    have k7 : e.key ≠ "Arrow Right" := fun h => hn (by rw [h]; decide)
    have k8 : e.key ≠ "Arrow Left" := fun h => hn (by rw [h]; decide)
    have k9 : e.key ≠ "Home" := fun h => hn (by rw [h]; decide)
    have k10 : e.key ≠ "End" := fun h => hn (by rw [h]; decide)
    have k11 : e.key ≠ "Page Up" := fun h => hn (by rw [h]; decide)
    have k12 : e.key ≠ "Page Down" := fun h => hn (by rw [h]; decide)
    have k13 : e.key ≠ "Space" := fun h => hn (by rw [h]; decide)
    have k14 : e.key ≠ " " := fun h => hn (by rw [h]; decide)
    have k15 : e.key ≠ "Delete" := fun h => hn (by rw [h]; decide)
    have hone : ∀ t : String, t.length = 1 → pyUpper e.key ≠ t := by
      intro t ht h
      have hl := pyUpper_length e.key
      rw [h, ht] at hl
      omega
    have hC := hone "C" rfl
    have hD := hone "D" rfl
    have hZ := hone "Z" rfl
    have hL := hone "L" rfl
    have hne1 : e.key.length ≠ 1 := by omega
    by_cases hc : e.ctrl = true
    · simp [mapKey, k1, k2, k3, k4, k5, k6, k7, k8, k9, k10, k11, k12, k13, k14, k15,
        hc, hC, hD, hZ, hL]
    · simp [mapKey, k1, k2, k3, k4, k5, k6, k7, k8, k9, k10, k11, k12, k13, k14, k15,
        hc, hne1]
  · intro c sh
    by_cases hsp : c = ' '
    · subst hsp
      cases sh <;> decide
    · have hne : ∀ t : String, t.length ≠ 1 → String.mk [c] ≠ t := by
        intro t ht h
        apply ht
        rw [← h]
        rfl
      have k1 := hne "Enter" (by decide)
      have k2 := hne "Backspace" (by decide)
      have k3 := hne "Tab" (by decide)
      have k4 := hne "Escape" (by decide)
      have k5 := hne "Arrow Up" (by decide)
      have k6 := hne "Arrow Down" (by decide)
      have k7 := hne "Arrow Right" (by decide)
      have k8 := hne "Arrow Left" (by decide)
      have k9 := hne "Home" (by decide)
      have k10 := hne "End" (by decide)
      have k11 := hne "Page Up" (by decide)
      have k12 := hne "Page Down" (by decide)
      have k13 := hne "Space" (by decide)
      have k15 := hne "Delete" (by decide)
      have k14 : String.mk [c] ≠ " " := by
        intro h
        apply hsp
        have hd := congrArg String.data h
        have hsd : String.data " " = [' '] := rfl
        rw [hsd] at hd
        simpa using hd
      have halpha : pyIsAlpha (String.mk [c]) = pyIsAlphaChar c := by
        simp [pyIsAlpha]
      have hlower : pyLower (String.mk [c]) = String.mk [pyLowerChar c] := rfl
      simp only [mapKey, if_neg k1, if_neg k2, if_neg k3, if_neg k4, if_neg k5,
        if_neg k6, if_neg k7, if_neg k8, if_neg k9, if_neg k10, if_neg k11, if_neg k12]
      rw [if_neg (by rintro (h | h) <;> [exact k13 h; exact k14 h])]
      rw [if_neg k15]
      simp only [Bool.false_eq_true, if_false, halpha, hlower]
      rfl

/-- Witness for `map_key_spec`, instantiating the clauses that carry
hypotheses at concrete key events. -/
theorem map_key_spec_witness :
    mapKey ⟨"Q", false, true⟩ = "" ∧
    mapKey ⟨"F1", false, false⟩ = "" ∧
    mapKey ⟨String.mk ['A'], true, false⟩ = String.mk ['A'] ∧
    mapKey ⟨String.mk ['A'], false, false⟩ = String.mk ['a'] := by
  have h := map_key_spec
  refine ⟨h.2.2.1 ⟨"Q", false, true⟩ rfl (by decide) (by decide) (by decide) (by decide)
    (by decide), h.2.2.2.1 ⟨"F1", false, false⟩ (by decide) (by decide), ?_, ?_⟩
  · rw [h.2.2.2.2 'A' true]
    decide
  · rw [h.2.2.2.2 'A' false]
    decide

/-! ## Row rendering (terminal.py lines 263-330)

A pyte buffer line is a sparse mapping from column index to a `Char`
record carrying the glyph string `data`, the foreground color name `fg`
and the `bold` flag; columns absent from the mapping read as the screen
default char.  `_render_line_data` walks columns `0..cols-1`, maps each
foreground through `_map_color`, and accumulates runs of equal mapped
color into `TextSpan`s whose style carries only the color.
-/

structure PChar where
  data : String
  fg : String
  bold : Bool
deriving DecidableEq, Repr

/-- The screen default char of pyte: a blank with default styling. -/
def defaultPChar : PChar := ⟨" ", "default", false⟩

structure Span where
  text : String
  color : Option String
deriving DecidableEq, Repr

/-- Embedding of `TerminalComponent._map_color` (terminal.py lines
315-330), with the flet color constants written as lowercase names. -/
def mapColor (color : String) : String :=
  if color = "default" then "white"
  else if color = "black" then "white"
  else if color = "red" then "red"
  else if color = "green" then "green"
  else if color = "brown" then "yellow"
  else if color = "blue" then "blue"
  else if color = "magenta" then "purple"
  else if color = "cyan" then "cyan"
  else if color = "white" then "white"
  else "white"

/-- Sparse line lookup: `x in line` followed by `line[x]`. -/
def lineLookup : List (Nat × PChar) → Nat → Option PChar
  | [], _ => none
  | (i, ch) :: rest, x => if i = x then some ch else lineLookup rest x

/-- The per-column data the loop of `_render_line_data` actually reads:
for each `x` in `0..cols-1`, the glyph text and the mapped foreground of
the cell at `x` (or of the default char). -/
def rowCells (line : List (Nat × PChar)) (cols : Nat) (d : PChar) : List (String × String) :=
  (List.range cols).map fun x =>
    let ch := (lineLookup line x).getD d
    (ch.data, mapColor ch.fg)

/-- The loop of `_render_line_data` (terminal.py lines 280-301): the
accumulator carries the spans built so far, `current_text` and
`current_fg`; a color change flushes the pending run (when its text is
nonempty) and starts a new one, otherwise the glyph is appended to the
pending run.  After the loop the pending run is flushed (lines 303-307). -/
def renderGo : List Span → String → Option String → List (String × String) → List Span
  | spans, curText, curFg, [] =>
    if curText = "" then spans else spans ++ [⟨curText, curFg⟩]
  | spans, curText, curFg, (t, c) :: rest =>
    if some c ≠ curFg then
      renderGo (if curText = "" then spans else spans ++ [⟨curText, curFg⟩]) t (some c) rest
    else
      renderGo spans (curText ++ t) curFg rest

/-- Embedding of `TerminalComponent._render_line_data` (terminal.py
lines 263-309). -/
def renderLineData (line : List (Nat × PChar)) (cols : Nat) (d : PChar) : List Span :=
  renderGo [] "" none (rowCells line cols d)

/-- Run-length encoding of a cell list by mapped color: the maximal runs
of consecutive cells sharing one mapped foreground, each merged into one
span. -/
def rleSpans : List (String × String) → List Span
  | [] => []
  | (t, c) :: rest =>
    match rleSpans rest with
    | [] => [⟨t, some c⟩]
    | s :: ss => if s.color = some c then ⟨t ++ s.text, some c⟩ :: ss else ⟨t, some c⟩ :: s :: ss

/-- Number of adjacent style (mapped color) changes in a cell list. -/
def colorChanges : List (String × String) → Nat
  | [] => 0
  | [_] => 0
  | a :: b :: rest => (if a.2 = b.2 then 0 else 1) + colorChanges (b :: rest)

/-- Folding a pending run into the front of an already-computed RLE. -/
def mergePending (t : String) (fg : Option String) (l : List Span) : List Span :=
  if t = "" then l
  else
    match l with
    | [] => [⟨t, fg⟩]
    | s :: ss => if s.color = fg then ⟨t ++ s.text, fg⟩ :: ss else ⟨t, fg⟩ :: s :: ss

theorem rleSpans_cons_shape (t c : String) (rest : List (String × String)) :
    ∃ tt ss, rleSpans ((t, c) :: rest) = ⟨tt, some c⟩ :: ss := by
  simp only [rleSpans]
  cases h : rleSpans rest with
  | nil => exact ⟨t, [], rfl⟩
  | cons s ss =>
    by_cases hc : s.color = some c
    · exact ⟨t ++ s.text, ss, by simp [hc]⟩
    · exact ⟨t, s :: ss, by simp [hc]⟩

theorem mergePending_rle_cons (t c : String) (rest : List (String × String))
    (ht : t ≠ "") :
    mergePending t (some c) (rleSpans rest) = rleSpans ((t, c) :: rest) := by
  simp only [mergePending, rleSpans, if_neg ht]

theorem string_append_ne_empty (a b : String) (hb : b ≠ "") : a ++ b ≠ "" := by
  intro h
  apply hb
  have hl := congrArg String.length h
  rw [String.length_append] at hl
  have : b.length = 0 := by
    have : ("" : String).length = 0 := rfl
    omega
  cases b with
  | mk data =>
    cases data with
    | nil => rfl
    | cons x xs => simp [String.length] at this

theorem rleSpans_cons_eq (t c : String) (rest : List (String × String)) :
    rleSpans ((t, c) :: rest) =
      match rleSpans rest with
      | [] => [⟨t, some c⟩]
      | s :: ss =>
        if s.color = some c then ⟨t ++ s.text, some c⟩ :: ss else ⟨t, some c⟩ :: s :: ss := rfl

theorem renderGo_eq_mergePending (cells : List (String × String))
    (h : ∀ p ∈ cells, p.1 ≠ "") :
    ∀ (spans : List Span) (curText : String) (curFg : Option String),
      renderGo spans curText curFg cells = spans ++ mergePending curText curFg (rleSpans cells) := by
  induction cells with
  | nil =>
    intro spans t fg
    by_cases ht : t = ""
    · simp [renderGo, rleSpans, mergePending, ht]
    · simp [renderGo, rleSpans, mergePending, ht]
  | cons p rest ih =>
    obtain ⟨t2, c2⟩ := p
    intro spans t fg
    have ht2 : t2 ≠ "" := h (t2, c2) (by simp)
    have hrest : ∀ p ∈ rest, p.1 ≠ "" := fun q hq => h q (by simp [hq])
    by_cases hc : some c2 = fg
    · subst hc
      rw [show renderGo spans t (some c2) ((t2, c2) :: rest) =
            renderGo spans (t ++ t2) (some c2) rest by simp [renderGo]]
      rw [ih hrest spans (t ++ t2) (some c2)]
      congr 1
      by_cases ht : t = ""
      · subst ht
        rw [show ("" ++ t2 : String) = t2 from rfl]
        rw [mergePending_rle_cons t2 c2 rest ht2]
        simp [mergePending]
      · have hne2 : t ++ t2 ≠ "" := string_append_ne_empty t t2 ht2
        cases hr : rleSpans rest with
        | nil =>
          simp [rleSpans_cons_eq, hr, mergePending, hne2, ht]
        | cons s ss2 =>
          by_cases hsc : s.color = some c2
          · simp only [rleSpans_cons_eq, hr, hsc, if_pos rfl]
            simp only [mergePending, if_neg hne2, if_neg ht, hsc, if_pos rfl]
            rw [String.append_assoc]
            simp
          · simp only [rleSpans_cons_eq, hr, if_neg hsc]
            simp only [mergePending, if_neg hne2, if_neg ht, hsc, if_neg hsc, if_pos rfl]
            simp
    · rw [show renderGo spans t fg ((t2, c2) :: rest) =
            renderGo (if t = "" then spans else spans ++ [⟨t, fg⟩]) t2 (some c2) rest by
          simp [renderGo, hc]]
      rw [ih hrest _ t2 (some c2)]
      rw [mergePending_rle_cons t2 c2 rest ht2]
      obtain ⟨tt, ss, hshape⟩ := rleSpans_cons_shape t2 c2 rest
      rw [hshape]
      have hcol : (⟨tt, some c2⟩ : Span).color ≠ fg := by simpa using hc
      by_cases ht : t = ""
      · simp [mergePending, ht]
      · simp only [mergePending, if_neg ht, if_neg hcol]
        simp

theorem rleSpans_length_le (cells : List (String × String)) :
    (rleSpans cells).length ≤ colorChanges cells + 1 := by
  induction cells with
  | nil => simp [rleSpans, colorChanges]
  | cons p rest ih =>
    obtain ⟨t, c⟩ := p
    cases rest with
    | nil => simp [rleSpans, colorChanges]
    | cons q r =>
      obtain ⟨t2, c2⟩ := q
      obtain ⟨tt, ss, hshape⟩ := rleSpans_cons_shape t2 c2 r
      rw [hshape] at ih
      by_cases hc : c = c2
      · have : rleSpans ((t, c) :: (t2, c2) :: r) = ⟨t ++ tt, some c⟩ :: ss := by
          rw [rleSpans_cons_eq, hshape]
          simp [hc]
        rw [this]
        simp only [colorChanges, if_pos (by simpa using hc)]
        simp only [List.length_cons] at ih ⊢
        omega
      · have : rleSpans ((t, c) :: (t2, c2) :: r) = ⟨t, some c⟩ :: ⟨tt, some c2⟩ :: ss := by
          rw [rleSpans_cons_eq, hshape]
          have : (⟨tt, some c2⟩ : Span).color ≠ some c := by
            simpa using fun h => hc h.symm
          simp [this]
        rw [this]
        simp only [colorChanges, if_neg (by simpa using hc)]
        simp only [List.length_cons] at ih ⊢
        omega

/-- C7 as amended.  For every screen row whose cells carry nonempty
glyph text (pyte cells always hold exactly one character),
`_render_line_data` produces exactly the run-length encoding of the row
by MAPPED FOREGROUND COLOR: maximal runs of consecutive cells sharing
one mapped foreground are merged into single spans carrying the run
text and that color (bold plays no part in the merging and is not
carried on the spans), and the span count is bounded by the number of
adjacent mapped-color changes plus one, not by the column count. -/
theorem render_line_rle_by_color (line : List (Nat × PChar)) (cols : Nat) (d : PChar)
    (h : ∀ p ∈ rowCells line cols d, p.1 ≠ "") :
    renderLineData line cols d = rleSpans (rowCells line cols d) ∧
    (renderLineData line cols d).length ≤ colorChanges (rowCells line cols d) + 1 := by
  have he := renderGo_eq_mergePending (rowCells line cols d) h [] "" none
  have : renderLineData line cols d = rleSpans (rowCells line cols d) := by
    rw [renderLineData, he]
    simp [mergePending]
  exact ⟨this, by rw [this]; exact rleSpans_length_le _⟩

/-- A two-cell row whose cells agree in every style attribute except
bold: the first cell is bold, the second is not. -/
def exBoldLine : List (Nat × PChar) :=
  [(0, ⟨"a", "default", true⟩), (1, ⟨"b", "default", false⟩)]

/-- Witness for `render_line_rle_by_color` at a concrete colored row. -/
theorem render_line_rle_by_color_witness :
    renderLineData [(0, ⟨"H", "red", false⟩), (1, ⟨"i", "red", false⟩)] 3 defaultPChar =
      rleSpans (rowCells [(0, ⟨"H", "red", false⟩), (1, ⟨"i", "red", false⟩)] 3 defaultPChar) ∧
    (renderLineData [(0, ⟨"H", "red", false⟩), (1, ⟨"i", "red", false⟩)] 3 defaultPChar).length ≤
      colorChanges (rowCells [(0, ⟨"H", "red", false⟩), (1, ⟨"i", "red", false⟩)] 3
        defaultPChar) + 1 :=
  render_line_rle_by_color [(0, ⟨"H", "red", false⟩), (1, ⟨"i", "red", false⟩)] 3
    defaultPChar (by decide)

/-- A styled span as the claim describes one: text run, foreground and
bold. -/
structure StyledSpan where
  text : String
  fg : String
  bold : Bool
deriving DecidableEq, Repr

/-- Modelled from the spec: merging maximal runs of consecutive cells
that share an identical style - foreground color AND bold - into single
spans carrying the run text, foreground and bold.  This is the span
list the claim says the renderer produces. -/
def rleStyled : List (String × String × Bool) → List StyledSpan
  | [] => []
  | (t, c, b) :: rest =>
    match rleStyled rest with
    | [] => [⟨t, c, b⟩]
    | s :: ss =>
      if s.fg = c ∧ s.bold = b then ⟨t ++ s.text, c, b⟩ :: ss else ⟨t, c, b⟩ :: s :: ss

/-- Per-column glyph text, mapped foreground and bold flag of a row. -/
def rowCellsStyled (line : List (Nat × PChar)) (cols : Nat) (d : PChar) :
    List (String × String × Bool) :=
  (List.range cols).map fun x =>
    let ch := (lineLookup line x).getD d
    (ch.data, mapColor ch.fg, ch.bold)

/-- C7 counterexample.  On a row whose two cells differ only in bold,
merging by identical style (foreground AND bold) would give two spans,
but `_render_line_data` - which compares mapped foreground only and puts
no bold on its spans - merges them into a single span.  The code's
output therefore is not the claimed style-run list at this row. -/
theorem render_merges_despite_bold :
    renderLineData exBoldLine 2 defaultPChar = [⟨"ab", some "white"⟩] ∧
    rleStyled (rowCellsStyled exBoldLine 2 defaultPChar) =
      [⟨"a", "white", true⟩, ⟨"b", "white", false⟩] ∧
    (renderLineData exBoldLine 2 defaultPChar).length ≠
      (rleStyled (rowCellsStyled exBoldLine 2 defaultPChar)).length := by
  refine ⟨by decide, by decide, by decide⟩

/-! ## Display update diffing (terminal.py lines 204-257)

For each visible buffer row, `_update_display` renders the new span
list, compares it with the previously rendered span list of that flet
`Text` line (`None` when the line was just created), and only assigns
and redraws the line when the comparison reports a change.
-/

/-- The per-pair comparison of the loop at lines 244-249: a pair of
spans differs when the texts differ or the style colors differ. -/
def spanDiff (p : Span × Span) : Bool :=
  p.1.text != p.2.text || p.1.color != p.2.color

/-- The change test of `_update_display` lines 239-249: changed when
there is no previous span list, when the lengths differ, or when some
zipped pair differs in text or color. -/
def spanChanged (newSpans : List Span) (old : Option (List Span)) : Bool :=
  match old with
  | none => true
  | some oldSpans =>
    if newSpans.length ≠ oldSpans.length then true
    else (newSpans.zip oldSpans).any spanDiff

/-- The buffer pass of `_update_display` (lines 229-257) over aligned
lists of newly rendered span lists and previous per-line span lists,
starting at row index `k`: returns the new per-line span lists and the
indices of the rows that were redrawn. -/
def updateBufferLines : Nat → List (List Span) → List (Option (List Span)) →
    List (Option (List Span)) × List Nat
  | _, [], _ => ([], [])
  | _, _ :: _, [] => ([], [])
  | k, r :: rs, o :: os =>
    let rest := updateBufferLines (k + 1) rs os
    if spanChanged r o then (some r :: rest.1, k :: rest.2) else (o :: rest.1, rest.2)

theorem zip_any_spanDiff (n : List Span) :
    ∀ o : List Span, n.length = o.length → (((n.zip o).any spanDiff = true) ↔ n ≠ o) := by
  induction n with
  | nil =>
    intro o h
    cases o with
    | nil => simp
    | cons b os => simp at h
  | cons a ns ih =>
    intro o h
    cases o with
    | nil => simp at h
    | cons b os =>
      have h2 : ns.length = os.length := by simpa using h
      obtain ⟨at_, ac⟩ := a
      obtain ⟨bt, bc⟩ := b
      simp only [List.zip_cons_cons, List.any_cons, Bool.or_eq_true, ih os h2, spanDiff,
        bne_iff_ne, ne_eq, List.cons.injEq, Span.mk.injEq, not_and]
      tauto

theorem spanChanged_iff (n : List Span) (o : Option (List Span)) :
    spanChanged n o = true ↔ o ≠ some n := by
  cases o with
  | none => simp [spanChanged]
  | some l =>
    simp only [spanChanged]
    by_cases h : n.length = l.length
    · rw [if_neg (by omega)]
      rw [zip_any_spanDiff n l h]
      constructor
      · intro hne heq
        exact hne (by injection heq with h2; exact h2.symm ▸ rfl)
      · intro hne heq
        exact hne (by rw [heq])
    · rw [if_pos (by omega)]
      constructor
      · intro _ heq
        injection heq with h2
        exact h (by rw [h2])
      · intro _
        rfl

theorem updateBufferLines_cons (k : Nat) (r : List Span) (rs : List (List Span))
    (o : Option (List Span)) (os : List (Option (List Span))) :
    updateBufferLines k (r :: rs) (o :: os) =
      if spanChanged r o = true then
        (some r :: (updateBufferLines (k + 1) rs os).1, k :: (updateBufferLines (k + 1) rs os).2)
      else (o :: (updateBufferLines (k + 1) rs os).1, (updateBufferLines (k + 1) rs os).2) := rfl

theorem updateBufferLines_index_ge (k : Nat) (rows : List (List Span))
    (old : List (Option (List Span))) :
    ∀ j ∈ (updateBufferLines k rows old).2, k ≤ j := by
  induction rows generalizing k old with
  | nil => simp [updateBufferLines]
  | cons r rs ih =>
    cases old with
    | nil => simp [updateBufferLines]
    | cons o os =>
      intro j hj
      rw [updateBufferLines_cons] at hj
      by_cases hch : spanChanged r o = true
      · rw [if_pos hch] at hj
        rcases List.mem_cons.mp hj with hj2 | hj2
        · omega
        · have h2 := ih (k + 1) os j hj2
          omega
      · rw [if_neg hch] at hj
        have h2 := ih (k + 1) os j hj
        omega

theorem updateBufferLines_spec (rows : List (List Span))
    (old : List (Option (List Span))) :
    ∀ (k i : Nat) (r : List Span) (o : Option (List Span)),
      rows.get? i = some r → old.get? i = some o →
      (((k + i) ∈ (updateBufferLines k rows old).2) ↔ spanChanged r o = true) ∧
      (updateBufferLines k rows old).1.get? i =
        some (if spanChanged r o then some r else o) := by
  induction rows generalizing old with
  | nil =>
    intro k i r o hr ho
    simp at hr
  | cons r0 rs ih =>
    intro k i r o hr ho
    cases old with
    | nil => simp at ho
    | cons o0 os =>
      cases i with
      | zero =>
        have hr0 : r0 = r := by
          have : some r0 = some r := hr
          injection this
        have ho0 : o0 = o := by
          have : some o0 = some o := ho
          injection this
        subst hr0
        subst ho0
        constructor
        · rw [updateBufferLines_cons, Nat.add_zero]
          by_cases hch : spanChanged r0 o0 = true
          · rw [if_pos hch]
            simp only [hch, iff_true]
            exact List.mem_cons_self _ _
          · rw [if_neg hch]
            constructor
            · intro hmem
              have h2 := updateBufferLines_index_ge (k + 1) rs os (k + 0) hmem
              omega
            · intro hfalse
              exact absurd hfalse hch
        · rw [updateBufferLines_cons]
          by_cases hch : spanChanged r0 o0 = true
          · rw [if_pos hch, if_pos hch]
            rfl
          · rw [if_neg hch, if_neg hch]
            rfl
      | succ i2 =>
        have hr2 : rs.get? i2 = some r := hr
        have ho2 : os.get? i2 = some o := ho
        have hrec := ih os (k + 1) i2 r o hr2 ho2
        constructor
        · rw [updateBufferLines_cons]
          rw [show k + (i2 + 1) = (k + 1) + i2 by omega]
          by_cases hch : spanChanged r0 o0 = true
          · rw [if_pos hch]
            rw [← hrec.1]
            constructor
            · intro hm
              rcases List.mem_cons.mp hm with hm2 | hm2
              · omega
              · exact hm2
            · intro hm
              exact List.mem_cons_of_mem _ hm
          · rw [if_neg hch]
            exact hrec.1
        · rw [updateBufferLines_cons]
          by_cases hch : spanChanged r0 o0 = true
          · rw [if_pos hch]
            exact hrec.2
          · rw [if_neg hch]
            exact hrec.2

/-- C8.  On a display update, a visible row is redrawn if and only if
its newly computed span list differs from the previously rendered span
list of that row - in span count, span text or span color, which for
these spans is exactly list inequality - and a row whose previous span
list is absent (a newly created line) is always redrawn; rows that
compare equal keep their previous state untouched. -/
theorem update_display_redraw_iff (rows : List (List Span))
    (old : List (Option (List Span))) (i : Nat) (r : List Span)
    (o : Option (List Span))
    (hr : rows.get? i = some r) (ho : old.get? i = some o) :
    ((i ∈ (updateBufferLines 0 rows old).2) ↔ o ≠ some r) ∧
    (o = none → i ∈ (updateBufferLines 0 rows old).2) ∧
    (o = some r → (updateBufferLines 0 rows old).1.get? i = some o) := by
  have h := updateBufferLines_spec rows old 0 i r o hr ho
  rw [Nat.zero_add] at h
  refine ⟨h.1.trans (spanChanged_iff r o), ?_, ?_⟩
  · intro hnone
    subst hnone
    exact h.1.mpr ((spanChanged_iff r none).mpr (by simp))
  · intro heq
    subst heq
    have hch : spanChanged r (some r) = false := by
      by_cases hb : spanChanged r (some r) = true
      · exact absurd rfl ((spanChanged_iff r (some r)).mp hb)
      · simpa using hb
    rw [h.2, hch]
    simp

/-- Witness for `update_display_redraw_iff`: one changed row (fresh
baseline) and one unchanged row. -/
theorem update_display_redraw_iff_witness :
    (0 ∈ (updateBufferLines 0 [[⟨"x", some "white"⟩], [⟨"y", some "red"⟩]]
        [none, some [⟨"y", some "red"⟩]]).2) ∧
    ((1 ∈ (updateBufferLines 0 [[⟨"x", some "white"⟩], [⟨"y", some "red"⟩]]
        [none, some [⟨"y", some "red"⟩]]).2) ↔
      (some [⟨"y", some "red"⟩] : Option (List Span)) ≠ some [⟨"y", some "red"⟩]) ∧
    (updateBufferLines 0 [[⟨"x", some "white"⟩], [⟨"y", some "red"⟩]]
        [none, some [⟨"y", some "red"⟩]]).1.get? 1 =
      some (some [⟨"y", some "red"⟩]) := by
  have h0 := update_display_redraw_iff [[⟨"x", some "white"⟩], [⟨"y", some "red"⟩]]
    [none, some [⟨"y", some "red"⟩]] 0 [⟨"x", some "white"⟩] none rfl rfl
  have h1 := update_display_redraw_iff [[⟨"x", some "white"⟩], [⟨"y", some "red"⟩]]
    [none, some [⟨"y", some "red"⟩]] 1 [⟨"y", some "red"⟩] (some [⟨"y", some "red"⟩])
    rfl rfl
  exact ⟨h0.2.1 rfl, h1.1, h1.2.2 rfl⟩

/-! ## Screen Buffer and decoder state machine

The repository delegates terminal emulation to the external pyte
library (`pyte.HistoryScreen` / `pyte.Stream`, terminal.py lines 19-20),
so the Screen Buffer component itself is not code under the repository
source tree.  It is modelled here from the spec: the data model of
section 3 and the decoder state machine of section 4.2 (Normal /
EscapeStart / CSIParams, printable writes with wraparound and
scroll-into-history, CSI parameter accumulation, cursor/erase/SGR
dispatch, defensive abort to Normal on unexpected bytes).  Control
bytes the spec does not mention are ignored.  What IS taken from the
source is the byte-to-text step feeding this machine: `_read_loop`
decodes EACH read chunk separately with
`data.decode("utf-8", errors="replace")` (shell.py line 98) and hands
the text to `stream.feed` (terminal.py line 199).
-/

structure SCell where
  ch : Nat
  fg : Nat
  bold : Bool
deriving DecidableEq, Repr

/-- The default cell: blank glyph, default foreground (SGR 39), not
bold. -/
def defaultSCell : SCell := ⟨0x20, 39, false⟩

inductive DecMode
  | normal
  | escStart
  | csiParams
deriving DecidableEq, Repr

structure SpecScreen where
  cols : Nat
  rows : Nat
  grid : List (List SCell)
  hist : List (List SCell)
  histCap : Nat
  curRow : Nat
  curCol : Nat
  fg : Nat
  bold : Bool
  mode : DecMode
  csiDone : List Nat
  curParam : Option Nat
deriving DecidableEq, Repr

def initSpecScreen (cols rows cap : Nat) : SpecScreen :=
  { cols := cols, rows := rows,
    grid := List.replicate rows (List.replicate cols defaultSCell),
    hist := [], histCap := cap, curRow := 0, curCol := 0,
    fg := 39, bold := false, mode := .normal, csiDone := [], curParam := none }

/-- Move the top row into history (evicting the oldest entries past the
capacity) and append a fresh blank row at the bottom. -/
def scrollUp (s : SpecScreen) : SpecScreen :=
  match s.grid with
  | [] => s
  | top :: others =>
    let h2 := s.hist ++ [top]
    let h3 := if s.histCap < h2.length then h2.drop (h2.length - s.histCap) else h2
    { s with grid := others ++ [List.replicate s.cols defaultSCell], hist := h3 }

/-- Write the cell for code point `cp` with the live attributes at the
cursor, then advance the cursor with wraparound, scrolling when output
would pass the last row. -/
def putChar (s : SpecScreen) (cp : Nat) : SpecScreen :=
  let row := s.grid.getD s.curRow []
  let s1 := { s with grid := s.grid.set s.curRow (row.set s.curCol ⟨cp, s.fg, s.bold⟩) }
  if s.curCol + 1 < s.cols then { s1 with curCol := s.curCol + 1 }
  else if s.curRow + 1 < s.rows then { s1 with curCol := 0, curRow := s.curRow + 1 }
  else { scrollUp s1 with curCol := 0 }

/-- One SGR parameter: 0 resets, 1 sets bold, 30-37 and 90-97 select a
foreground, 39 restores the default foreground; anything else is
ignored. -/
def applySgr (s : SpecScreen) (p : Nat) : SpecScreen :=
  if p = 0 then { s with fg := 39, bold := false }
  else if p = 1 then { s with bold := true }
  else if 30 ≤ p ∧ p ≤ 37 then { s with fg := p }
  else if 90 ≤ p ∧ p ≤ 97 then { s with fg := p }
  else if p = 39 then { s with fg := 39 }
  else s

/-- The parameters collected so far, closing the one still being
accumulated. -/
def collected (s : SpecScreen) : List Nat :=
  s.csiDone ++ (match s.curParam with | some n => [n] | none => [])

/-- Erase in line (CSI K): 0 = cursor to end, 1 = start through cursor,
2 = whole line; cleared cells become the default cell. -/
def eraseLine (s : SpecScreen) (m : Nat) : SpecScreen :=
  let f : Nat → SCell → SCell := fun x c =>
    if m = 0 then (if s.curCol ≤ x then defaultSCell else c)
    else if m = 1 then (if x ≤ s.curCol then defaultSCell else c)
    else if m = 2 then defaultSCell
    else c
  let row := s.grid.getD s.curRow []
  { s with grid := s.grid.set s.curRow ((row.enum.map fun p => f p.1 p.2)) }

/-- Erase in display (CSI J): 0 = cursor to end of screen, 1 = start of
screen through cursor, 2 = whole screen. -/
def eraseDisplay (s : SpecScreen) (m : Nat) : SpecScreen :=
  let fRow : Nat → List SCell → List SCell := fun y row =>
    if m = 2 then List.replicate s.cols defaultSCell
    else if m = 0 then
      (if y < s.curRow then row
       else if y = s.curRow then row.enum.map fun p => if s.curCol ≤ p.1 then defaultSCell else p.2
       else List.replicate s.cols defaultSCell)
    else if m = 1 then
      (if y < s.curRow then List.replicate s.cols defaultSCell
       else if y = s.curRow then row.enum.map fun p => if p.1 ≤ s.curCol then defaultSCell else p.2
       else row)
    else row
  { s with grid := s.grid.enum.map fun p => fRow p.1 p.2 }

/-- Dispatch on the terminating letter of a CSI sequence; unrecognized
letters are ignored, and the machine returns to Normal either way. -/
def csiDispatch (s : SpecScreen) (letter : Nat) : SpecScreen :=
  let ps := collected s
  let n := max 1 (ps.headD 1)
  let s0 := { s with mode := DecMode.normal, csiDone := [], curParam := none }
  if letter = 0x41 then { s0 with curRow := s0.curRow - n }
  else if letter = 0x42 then { s0 with curRow := min (s0.rows - 1) (s0.curRow + n) }
  else if letter = 0x43 then { s0 with curCol := min (s0.cols - 1) (s0.curCol + n) }
  else if letter = 0x44 then { s0 with curCol := s0.curCol - n }
  else if letter = 0x48 then
    { s0 with curRow := min (s0.rows - 1) (ps.headD 1 - 1),
              curCol := min (s0.cols - 1) (ps.getD 1 1 - 1) }
  else if letter = 0x4A then eraseDisplay s0 (ps.headD 0)
  else if letter = 0x4B then eraseLine s0 (ps.headD 0)
  else if letter = 0x6D then
    (if ps.isEmpty then applySgr s0 0 else ps.foldl applySgr s0)
  else s0

/-- One code point through the decoder state machine of spec section
4.2. -/
def feedCp (s : SpecScreen) (cp : Nat) : SpecScreen :=
  match s.mode with
  | .normal =>
    if cp = 0x1B then { s with mode := .escStart }
    else if 0x20 ≤ cp ∧ cp ≠ 0x7F then putChar s cp
    else s
  | .escStart =>
    if cp = 0x5B then { s with mode := .csiParams, csiDone := [], curParam := none }
    else { s with mode := .normal }
  | .csiParams =>
    if 0x30 ≤ cp ∧ cp ≤ 0x39 then
      { s with curParam := some ((s.curParam.getD 0) * 10 + (cp - 0x30)) }
    else if cp = 0x3B then
      { s with csiDone := s.csiDone ++ [s.curParam.getD 0], curParam := none }
    else if (0x41 ≤ cp ∧ cp ≤ 0x5A) ∨ (0x61 ≤ cp ∧ cp ≤ 0x7A) then csiDispatch s cp
    else { s with mode := .normal, csiDone := [], curParam := none }

def feedText (s : SpecScreen) (cps : List Nat) : SpecScreen :=
  cps.foldl feedCp s

/-- The full output path as the source implements it: every read chunk
is decoded on its own with `errors="replace"` (shell.py line 98) and
the resulting text is fed to the screen stream in order (terminal.py
lines 197-200). -/
def chunkPipeline (cols rows cap : Nat) (chunks : List (List Nat)) : SpecScreen :=
  chunks.foldl (fun sc chunk => feedText sc (decodeUtf8Replace chunk)) (initSpecScreen cols rows cap)

/-- C2 counterexample / code evaluation.  The two-byte UTF-8 character
U+00E9 delivered whole decodes to the single code point 233, but split
across two reads each half decodes to U+FFFD, so the final screen
buffers differ: per-chunk `decode("utf-8", errors="replace")` is not
resumable across calls. -/
theorem chunk_split_decode_differs :
    decodeUtf8Replace [0xC3, 0xA9] = [0xE9] ∧
    decodeUtf8Replace [0xC3] = [0xFFFD] ∧
    decodeUtf8Replace [0xA9] = [0xFFFD] ∧
    chunkPipeline 4 2 10 [[0xC3], [0xA9]] ≠ chunkPipeline 4 2 10 [[0xC3, 0xA9]] := by
  refine ⟨by decide, by decide, by decide, by decide⟩

/-! ## Terminal resize (terminal.py lines 89-130)

`handle_resize` recomputes the geometry from the pixel size and, when
it changed, resizes the pyte screen and then calls
`self.shell.resize(self.rows, self.cols)` (line 114).  Python resolves
`shell.resize` by attribute lookup on the `ShellManager` instance;
the names below are exactly the attributes `__init__` assigns and the
methods the class body defines (shell.py lines 9-131). -/

def shellManagerMethods : List String :=
  ["__init__", "_start_process", "write", "_read_loop", "close"]

def shellManagerInstanceAttrs : List String :=
  ["on_output", "shell_cmd", "running", "_thread", "master_fd", "process"]

/-- Python attribute lookup on a `ShellManager` instance: found iff the
name is an instance attribute or a method of the class. -/
def shellManagerRespondsTo (m : String) : Bool :=
  shellManagerInstanceAttrs.contains m || shellManagerMethods.contains m

inductive PyError
  | attributeError (name : String)
deriving DecidableEq, Repr

/-- The call `self.shell.resize(rows, cols)` of terminal.py line 114:
raises `AttributeError` when the `ShellManager` instance has no
attribute named `resize`. -/
def shellResizeCall (rows cols : Nat) : Except PyError Unit :=
  if shellManagerRespondsTo "resize" then Except.ok () else Except.error (.attributeError "resize")

/-- The geometry fields of `TerminalComponent` that `handle_resize`
reads and writes. -/
structure TermGeom where
  cols : Nat
  rows : Nat
  padding : Nat
deriving DecidableEq, Repr

def charWidth : Nat := 8

def charHeight : Nat := 18

/-- Embedding of `TerminalComponent.handle_resize` (terminal.py lines
89-130) for a mounted terminal with a shell, over whole-pixel sizes (on
which Python `int(x / k)` truncation agrees with natural division, and
with heights at least the doubled padding so the float subtraction is
nonnegative).  When the geometry changed the source stores the clamped
geometry, resizes the pyte screen, and then calls `shell.resize`; an
`AttributeError` from that call propagates out of `handle_resize`. -/
def handleResize (s : TermGeom) (width : Nat) (height : Option Nat) :
    Except PyError TermGeom :=
  let cols := width / charWidth
  let rows :=
    match height with
    | some h => (h - 2 * s.padding) / charHeight
    | none => s.rows
  if cols ≠ s.cols ∨ rows ≠ s.rows then
    let s1 : TermGeom := { s with cols := max 10 cols, rows := max 5 rows }
    match shellResizeCall s1.rows s1.cols with
    | Except.ok _ => Except.ok s1
    | Except.error e2 => Except.error e2
  else Except.ok s

/-- C1 / code evaluation.  `ShellManager` defines no `resize` operation
at all, so on every real instance the `shell.resize(rows, cols)` call
inside `handle_resize` raises `AttributeError` whenever the geometry
changes - here at the default 80x24 geometry resized to width 900
(the input of `test_terminal_resize`, which only passes because it
replaces the shell with a mock). -/
theorem handle_resize_missing_shell_resize :
    shellManagerRespondsTo "resize" = false ∧
    handleResize ⟨80, 24, 5⟩ 900 none = Except.error (.attributeError "resize") := by
  refine ⟨by decide, by rfl⟩

end SysEngn
